import Mathlib

/-!
Verification of the in-memory pub/sub broker (Go sources: `ws.go`,
`topics.go`-style manager, `ringbuffer.go`-style buffer, HTTP handlers).

The Go code is shallowly embedded: pure data is translated to Lean
structures, map-typed fields to association lists keyed by strings,
the subscriber heap (`*Subscriber` pointers shared between a Topic's map
and a Session) to a store function `SubId → SubState`, and Go channel
operations to explicit queue manipulation.  A Go send on a closed channel
is a runtime fault; operations that can fault return `Option`, with
`none` standing for the fault.  The single-threaded model corresponds to
the interleaving in which no concurrent goroutine (writer loop,
heartbeat) runs between the steps of the operation under study.
-/

/-- A published message (`Message` in the Go source): an identifier and a
free-form payload, modelled abstractly as a string. -/
structure Message where
  id : String
  payload : String
deriving DecidableEq, Repr, Inhabited

/- ----------------------------------------------------------------
   Ring buffer (`RingBuffer` in the source).
   `data` is the backing slice, `size` its capacity, `next` the write
   cursor, `full` whether the buffer has wrapped.
----------------------------------------------------------------- -/

structure RingBuffer where
  data : List Message
  size : Nat
  next : Nat
  full : Bool
deriving DecidableEq, Repr

/-- `NewRingBuffer(size)`: a zeroed slice of length `size`, cursor 0. -/
def NewRingBuffer (size : Nat) : RingBuffer :=
  { data := List.replicate size default, size := size, next := 0, full := false }

/-- `RingBuffer.Add`: write at the cursor, advance modulo `size`, and mark
the buffer full when the cursor wraps to 0 (the flag is never reset). -/
def RingBuffer.Add (r : RingBuffer) (m : Message) : RingBuffer :=
  let next' := (r.next + 1) % r.size
  { r with data := r.data.set r.next m, next := next',
           full := r.full || decide (next' = 0) }

/-- `RingBuffer.LastN`: up to `min n stored` most recent messages,
oldest-to-newest; empty for `n ≤ 0` or a zero-capacity buffer.  The two
Go loops (not-yet-full and full cases) are rendered as maps over index
ranges; `n` is clamped exactly as in the source. -/
def RingBuffer.LastN (r : RingBuffer) (n : Int) : List Message :=
  if n ≤ 0 ∨ r.size = 0 then []
  else if r.full = false then
    let k := min n.toNat r.next
    (List.range k).map (fun i => r.data.getD (r.next - k + i) default)
  else
    let k := min n.toNat r.size
    let start := (r.next + r.size - k) % r.size
    (List.range k).map (fun i => r.data.getD ((start + i) % r.size) default)

/-- The state of a ring buffer of capacity `N` after the sequence of
`Add` calls `ms`, in order. -/
def buildRB (N : Nat) (ms : List Message) : RingBuffer :=
  ms.foldl RingBuffer.Add (NewRingBuffer N)

/- ----------------------------------------------------------------
   Generic list helpers used by the proofs.
----------------------------------------------------------------- -/

theorem getD_set_char {α : Type} [Inhabited α] (l : List α) (i j : Nat) (v : α) :
    (l.set i v).getD j default =
      if i = j ∧ i < l.length then v else l.getD j default := by
  induction l generalizing i j with
  | nil => simp [List.set]
  | cons a t ih =>
    cases i with
    | zero =>
      cases j <;> simp [List.set, List.getD]
    | succ i' =>
      cases j with
      | zero => simp [List.set, List.getD]
      | succ j' =>
        simp only [List.set, List.getD_cons_succ, List.length_cons]
        rw [ih i' j']
        by_cases h : i' = j' ∧ i' < t.length
        · rw [if_pos h, if_pos ⟨by omega, by omega⟩]
        · rw [if_neg h, if_neg (by omega)]

theorem getD_append_left {α : Type} [Inhabited α] (l l' : List α) (j : Nat)
    (h : j < l.length) : (l ++ l').getD j default = l.getD j default := by
  induction l generalizing j with
  | nil => simp at h
  | cons a t ih =>
    cases j with
    | zero => simp [List.getD]
    | succ j' =>
      simp only [List.cons_append, List.getD_cons_succ]
      exact ih j' (by simp at h; omega)

theorem getD_append_right_last {α : Type} [Inhabited α] (l : List α) (m : α) :
    (l ++ [m]).getD l.length default = m := by
  induction l with
  | nil => simp [List.getD]
  | cons a t ih =>
    simp only [List.cons_append, List.length_cons, List.getD_cons_succ]
    exact ih

theorem getD_eq_getElem {α : Type} [Inhabited α] (l : List α) (j : Nat)
    (h : j < l.length) : l.getD j default = l[j] := by
  induction l generalizing j with
  | nil => simp at h
  | cons a t ih =>
    cases j with
    | zero => simp [List.getD]
    | succ j' => simp only [List.getD_cons_succ, List.getElem_cons_succ]
                 exact ih j' (by simp at h; omega)

theorem drop_as_range_map {α : Type} [Inhabited α] (l : List α) (s : Nat)
    (h : s ≤ l.length) :
    l.drop s = (List.range (l.length - s)).map (fun i => l.getD (s + i) default) := by
  apply List.ext_getElem
  · simp
  · intro j h1 h2
    simp only [List.length_drop] at h1
    simp only [List.getElem_drop, List.getElem_map, List.getElem_range]
    rw [getD_eq_getElem _ _ (by omega)]

/- ----------------------------------------------------------------
   Ring buffer state after a sequence of Adds.
----------------------------------------------------------------- -/

theorem buildRB_append (N : Nat) (ms : List Message) (m : Message) :
    buildRB N (ms ++ [m]) = (buildRB N ms).Add m := by
  simp [buildRB, List.foldl_append]

theorem buildRB_size (N : Nat) (ms : List Message) : (buildRB N ms).size = N := by
  induction ms using List.reverseRecOn with
  | nil => simp [buildRB, NewRingBuffer]
  | append_singleton l a ih => rw [buildRB_append]; simp [RingBuffer.Add, ih]

theorem buildRB_data_length (N : Nat) (ms : List Message) :
    (buildRB N ms).data.length = N := by
  induction ms using List.reverseRecOn with
  | nil => simp [buildRB, NewRingBuffer]
  | append_singleton l a ih => rw [buildRB_append]; simp [RingBuffer.Add, ih]

theorem buildRB_next (N : Nat) (ms : List Message) :
    (buildRB N ms).next = ms.length % N := by
  induction ms using List.reverseRecOn with
  | nil => simp [buildRB, NewRingBuffer]
  | append_singleton l a ih =>
    rw [buildRB_append]
    simp only [RingBuffer.Add, ih, buildRB_size, List.length_append,
      List.length_singleton]
    exact Nat.mod_add_mod l.length N 1

theorem succ_mod_char (N k : Nat) (hN : 0 < N) :
    (k + 1) % N = if k % N + 1 = N then 0 else k % N + 1 := by
  rcases Nat.lt_or_ge 1 N with h1 | h1
  · rw [Nat.add_mod k 1 N, Nat.mod_eq_of_lt h1]
    have hq : k % N < N := Nat.mod_lt _ hN
    by_cases he : k % N + 1 = N
    · rw [if_pos he, he, Nat.mod_self]
    · rw [if_neg he, Nat.mod_eq_of_lt (by omega)]
  · have hN1 : N = 1 := by omega
    subst hN1
    simp [Nat.mod_one]

theorem buildRB_full (N : Nat) (ms : List Message) (hN : 0 < N) :
    (buildRB N ms).full = decide (N ≤ ms.length) := by
  induction ms using List.reverseRecOn with
  | nil => simp [buildRB, NewRingBuffer]; omega
  | append_singleton l a ih =>
    rw [buildRB_append]
    simp only [RingBuffer.Add, ih, buildRB_size, buildRB_next,
      List.length_append, List.length_singleton]
    rw [Nat.mod_add_mod, succ_mod_char N l.length hN]
    have hq : l.length % N < N := Nat.mod_lt _ hN
    have hle : l.length % N ≤ l.length := Nat.mod_le _ _
    by_cases he : l.length % N + 1 = N
    · have : N ≤ l.length + 1 := by omega
      simp [he, this]
    · simp only [if_neg he]
      have hne : ¬ (l.length % N + 1 = 0) := by omega
      by_cases hNk : N ≤ l.length
      · have hNk1 : N ≤ l.length + 1 := by omega
        simp [hNk, hNk1, hne]
      · have hNk1 : ¬ N ≤ l.length + 1 := by
          -- if N = l.length + 1 then l.length % N = l.length, so he would hold
          intro hc
          have : N = l.length + 1 := by omega
          subst this
          rw [Nat.mod_eq_of_lt (by omega)] at he
          omega
        simp [hNk, hNk1, hne]

theorem getD_replicate {α : Type} [Inhabited α] (N p : Nat) :
    (List.replicate N (default : α)).getD p default = default := by
  induction N generalizing p with
  | zero => simp [List.getD]
  | succ n ih =>
    cases p with
    | zero => simp [List.replicate, List.getD]
    | succ p' => simp only [List.replicate, List.getD_cons_succ]; exact ih p'

theorem mod_char_two (N x : Nat) (h : x < 2 * N) :
    x % N = if x < N then x else x - N := by
  by_cases h1 : x < N
  · rw [if_pos h1, Nat.mod_eq_of_lt h1]
  · rw [if_neg h1, Nat.mod_eq_sub_mod (by omega), Nat.mod_eq_of_lt (by omega)]

/-- After the Adds `ms`, slot `p` of the backing slice holds the most
recent message whose (0-based) insertion index is congruent to `p`
modulo the capacity, and the zero value if no insertion hit the slot. -/
theorem buildRB_getD (N : Nat) (hN : 0 < N) (p : Nat) (hp : p < N)
    (ms : List Message) :
    (buildRB N ms).data.getD p default =
      if p < ms.length % N then ms.getD (ms.length - ms.length % N + p) default
      else if p < ms.length then
        ms.getD (ms.length - ms.length % N - N + p) default
      else default := by
  induction ms using List.reverseRecOn with
  | nil =>
    simp [buildRB, NewRingBuffer, getD_replicate]
  | append_singleton l a ih =>
    rw [buildRB_append]
    have hq : l.length % N < N := Nat.mod_lt _ hN
    have hqle : l.length % N ≤ l.length := Nat.mod_le _ _
    have hdm : N * (l.length / N) + l.length % N = l.length := Nat.div_add_mod _ N
    have hgeN : l.length % N < l.length → N ≤ l.length - l.length % N := by
      intro h
      rcases Nat.eq_zero_or_pos (l.length / N) with h0 | h0
      · rw [h0, Nat.mul_zero] at hdm; omega
      · have h1 : N * 1 ≤ N * (l.length / N) := Nat.mul_le_mul_left N h0
        omega
    simp only [RingBuffer.Add, buildRB_next, List.length_append,
      List.length_singleton]
    rw [getD_set_char, buildRB_data_length]
    rw [succ_mod_char N l.length hN]
    by_cases he : l.length % N + 1 = N
    · rw [if_pos he, if_neg (Nat.not_lt_zero p)]
      by_cases hpq : l.length % N = p
      · rw [if_pos ⟨hpq, hq⟩, if_pos (show p < l.length + 1 by omega)]
        rw [show l.length + 1 - 0 - N + p = l.length by omega]
        exact (getD_append_right_last l a).symm
      · rw [if_neg (fun h => hpq h.1), ih]
        rw [if_pos (show p < l.length % N by omega),
            if_pos (show p < l.length + 1 by omega)]
        rw [show l.length + 1 - 0 - N + p = l.length - l.length % N + p by omega]
        rw [getD_append_left _ _ _ (by omega)]
    · rw [if_neg he]
      by_cases hpq : l.length % N = p
      · rw [if_pos ⟨hpq, hq⟩, if_pos (show p < l.length % N + 1 by omega)]
        rw [show l.length + 1 - (l.length % N + 1) + p = l.length by omega]
        exact (getD_append_right_last l a).symm
      · rw [if_neg (fun h => hpq h.1), ih]
        by_cases hplt : p < l.length % N
        · rw [if_pos hplt, if_pos (show p < l.length % N + 1 by omega)]
          rw [show l.length + 1 - (l.length % N + 1) + p
                = l.length - l.length % N + p by omega]
          rw [getD_append_left _ _ _ (by omega)]
        · rw [if_neg hplt, if_neg (show ¬ p < l.length % N + 1 by omega)]
          by_cases hpk : p < l.length
          · have hNle : N ≤ l.length - l.length % N := hgeN (by omega)
            rw [if_pos hpk, if_pos (show p < l.length + 1 by omega)]
            rw [show l.length + 1 - (l.length % N + 1) - N + p
                  = l.length - l.length % N - N + p by omega]
            rw [getD_append_left _ _ _ (by omega)]
          · have hpk1 : ¬ p < l.length + 1 := by
              rcases Nat.lt_or_ge l.length N with hkN | hkN
              · have hqk := Nat.mod_eq_of_lt hkN
                omega
              · omega
            rw [if_neg hpk, if_neg hpk1]

theorem sub_mod_ge (N k : Nat) (hN : 0 < N) (h : N ≤ k) : N ≤ k - k % N := by
  have hdm : N * (k / N) + k % N = k := Nat.div_add_mod k N
  rcases Nat.eq_zero_or_pos (k / N) with h0 | h0
  · rw [h0, Nat.mul_zero] at hdm
    have : k % N < N := Nat.mod_lt _ hN
    omega
  · have h1 : N * 1 ≤ N * (k / N) := Nat.mul_le_mul_left N h0
    omega

/-- After the Adds `ms` on a capacity-`N` buffer, `LastN n` is the
length-`min n (min ms.length N)` suffix of `ms`. -/
theorem lastN_drop_char (N : Nat) (hN : 0 < N) (ms : List Message) (n : Int) :
    (buildRB N ms).LastN n
      = ms.drop (ms.length - min n.toNat (min ms.length N)) := by
  simp only [RingBuffer.LastN, buildRB_size, buildRB_next, buildRB_full N ms hN]
  by_cases hn : n ≤ 0
  · rw [if_pos (Or.inl hn)]
    have h0 : n.toNat = 0 := by omega
    rw [h0]
    simp
  · rw [if_neg (by push_neg; constructor <;> omega)]
    by_cases hk : ms.length < N
    · rw [if_pos (by simp; omega)]
      have hnext : ms.length % N = ms.length := Nat.mod_eq_of_lt hk
      rw [hnext]
      have hminN : min ms.length N = ms.length := by omega
      rw [hminN]
      rw [drop_as_range_map ms (ms.length - min n.toNat ms.length) (by omega)]
      rw [show ms.length - (ms.length - min n.toNat ms.length)
            = min n.toNat ms.length by omega]
      apply List.map_congr_left
      intro i hi
      rw [List.mem_range] at hi
      rw [buildRB_getD N hN _ (by omega) ms, hnext]
      rw [if_pos (show ms.length - min n.toNat ms.length + i < ms.length by omega)]
      rw [show ms.length - ms.length + (ms.length - min n.toNat ms.length + i)
            = ms.length - min n.toNat ms.length + i by omega]
    · rw [if_neg (by simp; omega)]
      have hNL : N ≤ ms.length := by omega
      have hq : ms.length % N < N := Nat.mod_lt _ hN
      have hqle : ms.length % N ≤ ms.length := Nat.mod_le _ _
      have hsub : N ≤ ms.length - ms.length % N := sub_mod_ge N ms.length hN hNL
      have hminN : min ms.length N = N := by omega
      rw [hminN]
      rw [drop_as_range_map ms (ms.length - min n.toNat N) (by omega)]
      rw [show ms.length - (ms.length - min n.toNat N) = min n.toNat N by omega]
      apply List.map_congr_left
      intro i hi
      rw [List.mem_range] at hi
      rw [Nat.mod_add_mod]
      rw [mod_char_two N _ (by omega)]
      by_cases hx : ms.length % N + N - min n.toNat N + i < N
      · rw [if_pos hx]
        rw [buildRB_getD N hN _ (by omega) ms]
        rw [if_neg (show ¬ ms.length % N + N - min n.toNat N + i
              < ms.length % N by omega)]
        rw [if_pos (show ms.length % N + N - min n.toNat N + i
              < ms.length by omega)]
        congr 1
        omega
      · rw [if_neg hx]
        rw [buildRB_getD N hN _ (by omega) ms]
        rw [if_pos (show ms.length % N + N - min n.toNat N + i - N
              < ms.length % N by omega)]
        congr 1
        omega

/-- Five sample messages used by concrete witnesses. -/
def demoMsgs : List Message :=
  [⟨"m1", "1"⟩, ⟨"m2", "2"⟩, ⟨"m3", "3"⟩, ⟨"m4", "4"⟩, ⟨"m5", "5"⟩]

/-- Claim C4: for every sequence of k Add calls m1..mk on a ring buffer of
capacity N (N ≥ 1) and every integer n, LastN n returns exactly the
min(n, min(k, N)) most recently added messages in oldest-to-newest
insertion order — the corresponding suffix of m1..mk — and returns the
empty sequence when n ≤ 0. -/
theorem claim_C4_ring_lastN (N : Nat) (hN : 0 < N) (ms : List Message) (n : Int) :
    (buildRB N ms).LastN n
        = ms.drop (ms.length - min n.toNat (min ms.length N))
      ∧ ((buildRB N ms).LastN n).length = min n.toNat (min ms.length N)
      ∧ (n ≤ 0 → (buildRB N ms).LastN n = []) := by
  refine ⟨lastN_drop_char N hN ms n, ?_, ?_⟩
  · rw [lastN_drop_char N hN ms n, List.length_drop]
    omega
  · intro hn
    rw [lastN_drop_char N hN ms n]
    have h0 : n.toNat = 0 := by omega
    rw [h0]
    simp

/-- Witness for C4: capacity 3, five Adds, n = 2 yields the last two
messages in order. -/
theorem claim_C4_ring_lastN_witness :
    0 < 3
      ∧ ((buildRB 3 demoMsgs).LastN 2
            = demoMsgs.drop (demoMsgs.length - min (2 : Int).toNat (min demoMsgs.length 3))
          ∧ ((buildRB 3 demoMsgs).LastN 2).length
              = min (2 : Int).toNat (min demoMsgs.length 3)
          ∧ ((2 : Int) ≤ 0 → (buildRB 3 demoMsgs).LastN 2 = []))
      ∧ (buildRB 3 demoMsgs).LastN 2 = [⟨"m4", "4"⟩, ⟨"m5", "5"⟩] :=
  ⟨by decide, claim_C4_ring_lastN 3 (by decide) demoMsgs 2, by decide⟩

/- ----------------------------------------------------------------
   Subscribers, topics, the manager, and the session handler.
----------------------------------------------------------------- -/

/-- Identifier of a Subscriber allocation: stands for the Go pointer
`*Subscriber`, which is shared between a Topic's map and its Session. -/
abbrev SubId := Nat

/-- The mutable state of one `Subscriber`: client id, contents of the
bounded send channel, its capacity (`SUBSCRIBER_QUEUE_SIZE`), whether the
send channel has been closed, and whether the closed-signal channel has
been closed. -/
structure SubState where
  id : String
  queue : List Message
  cap : Nat
  sendClosed : Bool
  closedSig : Bool
deriving DecidableEq, Repr

/-- `Subscriber.Close` (ws.go): the select on the closed-signal makes the
call a no-op when the signal has already fired; otherwise it fires the
signal and closes the send channel.  The socket close that follows is a
collaborator effect outside this state. -/
def SubState.Close (s : SubState) : SubState :=
  if s.closedSig then s
  else { s with closedSig := true, sendClosed := true }

/-- A server-to-client frame, restricted to the fields the claims
observe. -/
inductive Frame where
  | ack (topic : String)
  | errorF (code : String) (msg : String)
  | pong
deriving DecidableEq, Repr

/-- One `Topic`: name, subscriber map keyed by client id, replay ring
buffer, and publish counter. -/
structure TopicState where
  name : String
  subscribers : List (String × SubId)
  history : RingBuffer
  msgCount : Nat
deriving DecidableEq, Repr

/-- The subscriber heap: a total map from allocation ids to states. -/
def Store := SubId → SubState

def Store.update (st : Store) (i : SubId) (s : SubState) : Store :=
  fun j => if j = i then s else st j

/-- Whole-broker state: the manager's topic map, the subscriber heap, and
the next fresh allocation id. -/
structure World where
  topics : List (String × TopicState)
  store : Store
  nextSid : SubId

/- Association-list operations modelling Go map lookup, assignment and
delete (keys are unique in every reachable map). -/

def alookup {α : Type} (l : List (String × α)) (k : String) : Option α :=
  match l with
  | [] => none
  | (k', v) :: rest => if k' = k then some v else alookup rest k

def aset {α : Type} (l : List (String × α)) (k : String) (v : α) :
    List (String × α) :=
  match l with
  | [] => [(k, v)]
  | (k', v') :: rest =>
    if k' = k then (k, v) :: rest else (k', v') :: aset rest k v

def adel {α : Type} (l : List (String × α)) (k : String) : List (String × α) :=
  match l with
  | [] => []
  | (k', v') :: rest => if k' = k then rest else (k', v') :: adel rest k

/-- `TopicsManager.CreateTopic`: error when the name is already
registered, else insert a fresh topic whose replay buffer is
`NewRingBuffer(100)` — the capacity is the literal 100 in the source; the
function consults no configuration. -/
def CreateTopic (topics : List (String × TopicState)) (name : String) :
    Except Unit (List (String × TopicState)) :=
  match alookup topics name with
  | some _ => .error ()
  | none => .ok (aset topics name ⟨name, [], NewRingBuffer 100, 0⟩)

/-- Go `strings.TrimSpace`: strip leading and trailing whitespace. -/
def trimSpace (s : String) : String :=
  String.mk (((s.data.dropWhile Char.isWhitespace).reverse.dropWhile
      Char.isWhitespace).reverse)

/-- Result of POST /topics, restricted to what the claims observe. -/
inductive HttpResult where
  | created (topic : String)
  | badRequest
  | conflict
deriving DecidableEq, Repr

/-- POST /topics (`topicsCollectionHandler`): reject a name that is empty
after trimming with 400 BAD_REQUEST; otherwise call `CreateTopic` with
the UNTRIMMED name (the source trims only inside the emptiness test). -/
def topicsCollectionPost (topics : List (String × TopicState)) (name : String) :
    HttpResult × List (String × TopicState) :=
  if trimSpace name = "" then (HttpResult.badRequest, topics)
  else
    match CreateTopic topics name with
    | .error () => (HttpResult.conflict, topics)
    | .ok topics' => (HttpResult.created name, topics')

/-- Ordered events of the registration critical section (ws.go, held
under the topic lock). -/
inductive RegEvent where
  | closedOld (sid : SubId)
  | bound (clientId : String) (sid : SubId)
deriving DecidableEq, Repr

/-- Registration step of `subscribe` (ws.go): if the client id is already
bound, Close the old subscriber first, then install the new binding. -/
def registerSub (t : TopicState) (st : Store) (clientId : String)
    (sid : SubId) : TopicState × Store × List RegEvent :=
  match alookup t.subscribers clientId with
  | some old =>
    ({ t with subscribers := aset t.subscribers clientId sid },
     st.update old (st old).Close,
     [RegEvent.closedOld old, RegEvent.bound clientId sid])
  | none =>
    ({ t with subscribers := aset t.subscribers clientId sid },
     st, [RegEvent.bound clientId sid])

/-- The replay loop of the `subscribe` handler (ws.go): for each replayed
message, the select either enqueues (free capacity) or — on a full
queue — `CloseWithError("SLOW_CONSUMER", "replay overflow")` writes an
error frame and Closes the subscriber.  The loop does NOT stop after the
overflow; a subsequent iteration sends on the now-closed channel, a Go
runtime fault, modelled as `none`. -/
def replayLoop (s : SubState) (ms : List Message) :
    Option (SubState × List Frame) :=
  match ms with
  | [] => some (s, [])
  | m :: rest =>
    if s.sendClosed then none
    else if s.queue.length < s.cap then
      replayLoop { s with queue := s.queue ++ [m] } rest
    else
      match replayLoop s.Close rest with
      | none => none
      | some (s', fr) =>
        some (s', Frame.errorF "SLOW_CONSUMER" "replay overflow" :: fr)

/-- Session-local state (ws.go line 104): the `subscriptions` map.  The
source declares it and iterates it on exit, but no dispatch arm ever
writes to it. -/
structure SessionState where
  subs : List (String × SubId)
deriving DecidableEq, Repr

/-- The `subscribe` arm of the session dispatch (ws.go): validate, look
up the topic, create a subscriber with a fresh id and an empty queue of
capacity `queueSize`, register it (closing a replaced binding), run the
replay loop when `last_n > 0`, and write the ack — unconditionally, even
after a replay overflow.  The session-local map is returned unchanged,
exactly as in the source, which never inserts into `subs`.  `none` is
the Go fault of sending on a closed channel during replay. -/
def handleSubscribe (w : World) (sess : SessionState)
    (topicName clientId : String) (lastN : Int) (queueSize : Nat) :
    Option (World × SessionState × List Frame) :=
  if topicName = "" ∨ clientId = "" then
    some (w, sess, [Frame.errorF "BAD_REQUEST" "topic and client_id required"])
  else
    match alookup w.topics topicName with
    | none => some (w, sess, [Frame.errorF "TOPIC_NOT_FOUND" "topic not found"])
    | some t =>
      let sid := w.nextSid
      let sub : SubState :=
        { id := clientId, queue := [], cap := queueSize,
          sendClosed := false, closedSig := false }
      let st1 := Store.update w.store sid sub
      let reg := registerSub t st1 clientId sid
      let w1 : World :=
        { topics := aset w.topics topicName reg.1,
          store := reg.2.1, nextSid := w.nextSid + 1 }
      if 0 < lastN then
        match replayLoop (reg.2.1 sid) (t.history.LastN lastN) with
        | none => none
        | some (s', fr) =>
          some ({ w1 with store := Store.update reg.2.1 sid s' }, sess,
                fr ++ [Frame.ack topicName])
      else
        some (w1, sess, [Frame.ack topicName])

/-- Session exit cleanup (ws.go lines 191-196): iterate the session-local
map and Close each subscriber.  Nothing is removed from any Topic's
subscriber map. -/
def sessionCleanup (w : World) (sess : SessionState) : World :=
  { w with store :=
      sess.subs.foldl (fun st p => Store.update st p.2 (st p.2).Close) w.store }

/-- Fan-out loop of `publishToTopic` (ws.go): for each registered
subscriber in iteration order, a non-blocking enqueue; on a full queue
the subscriber gets a SLOW_CONSUMER error frame on its socket, is
Closed, and is deleted from the map.  A subscriber whose send channel is
already closed makes the select a Go runtime fault (`none`). -/
def fanOut (st : Store) (m : Message) :
    List (String × SubId) →
      Option (Store × List (String × SubId) × List (SubId × Frame))
  | [] => some (st, [], [])
  | (cid, sid) :: rest =>
    let s := st sid
    if s.sendClosed then none
    else if s.queue.length < s.cap then
      match fanOut (Store.update st sid { s with queue := s.queue ++ [m] })
          m rest with
      | none => none
      | some (st', subs', fr) => some (st', (cid, sid) :: subs', fr)
    else
      match fanOut (Store.update st sid s.Close) m rest with
      | none => none
      | some (st', subs', fr) =>
        some (st', subs',
          (sid, Frame.errorF "SLOW_CONSUMER" "subscriber queue overflow") :: fr)

/-- Outcome of `publishToTopic`. -/
inductive PubResult where
  | notFound
  | panicked
  | ok (w : World) (frames : List (SubId × Frame))

/-- `publishToTopic` (ws.go): look up the topic, record the message in
the history ring buffer, fan out to every registered subscriber evicting
the full ones, then increment the publish counter. -/
def publishToTopic (w : World) (topicName : String) (m : Message) : PubResult :=
  match alookup w.topics topicName with
  | none => PubResult.notFound
  | some t =>
    let t1 := { t with history := t.history.Add m }
    match fanOut w.store m t1.subscribers with
    | none => PubResult.panicked
    | some (st', subs', fr) =>
      PubResult.ok
        { w with
          topics := aset w.topics topicName
            { t1 with subscribers := subs', msgCount := t1.msgCount + 1 },
          store := st' } fr

/-- Drain step of `CloseGracefully`: non-blocking receives until the
queue is empty or the deadline passes; the Go loop receives first and
then checks the clock, so a receive that crosses the deadline still
consumed its message.  `timeUp j` says whether the deadline has passed
after the j-th receive.  (With the send channel closed and the queue
empty, the Go loop spins on zero-value receives until the deadline and
still returns with the empty queue.) -/
def drainQueue (timeUp : Nat → Bool) : List Message → Nat → List Message
  | [], _ => []
  | _ :: rest, j => if timeUp j then rest else drainQueue timeUp rest (j + 1)

/-- `Subscriber.CloseGracefully` (topics manager source): closes the
closed-signal channel UNCONDITIONALLY — there is no already-closed
check, unlike `Close` — then drains the queue.  Closing an
already-closed Go channel is a runtime fault, modelled as `.error ()`.
The send channel is not closed by this function. -/
def SubState.CloseGracefully (s : SubState) (timeUp : Nat → Bool) :
    Except Unit SubState :=
  if s.closedSig then .error ()
  else .ok { s with closedSig := true, queue := drainQueue timeUp s.queue 0 }

/- ----------------------------------------------------------------
   Concrete scenario worlds, built through the modelled operations.
----------------------------------------------------------------- -/

/-- The all-zero subscriber heap (Go zero values). -/
def baseStore : Store := fun _ => ⟨"", [], 0, false, false⟩

/-- World with one topic "t" created via CreateTopic. -/
def worldT : World :=
  { topics := (CreateTopic [] "t").toOption.getD [],
    store := baseStore, nextSid := 0 }

/-- One publish step on topic "t" (keeps the world on failure). -/
def pubStep (w : World) (m : Message) : World :=
  match publishToTopic w "t" m with
  | PubResult.ok w' _ => w'
  | _ => w

/-- worldT after publishing m1 then m2. -/
def worldT2 : World := pubStep (pubStep worldT ⟨"m1", "1"⟩) ⟨"m2", "2"⟩

/-- worldT2 after also publishing m3. -/
def worldT3 : World := pubStep worldT2 ⟨"m3", "3"⟩

/- ----------------------------------------------------------------
   Claim theorems.
----------------------------------------------------------------- -/

theorem close_close (s : SubState) : s.Close.Close = s.Close := by
  unfold SubState.Close
  by_cases h : s.closedSig
  · simp [h]
  · simp [h]

theorem close_closedSig (s : SubState) : s.Close.closedSig = true := by
  unfold SubState.Close
  by_cases h : s.closedSig
  · simp [h]
  · simp [h]

/-- Claim C8: invoking Close any number of times in succession leaves the
subscriber in the same state as invoking it exactly once; the first call
fires the closed-signal and closes the send queue, and subsequent calls
return without further effect. -/
theorem claim_C8_close_idempotent (s : SubState) (n : Nat) :
    SubState.Close^[n + 1] s = s.Close
      ∧ s.Close.closedSig = true
      ∧ (s.closedSig = false → s.Close.sendClosed = true)
      ∧ (s.closedSig = true → s.Close = s) := by
  refine ⟨?_, close_closedSig s, ?_, ?_⟩
  · induction n with
    | zero => rfl
    | succ k ih =>
      rw [Function.iterate_succ_apply' SubState.Close (k + 1) s, ih, close_close]
  · intro h
    unfold SubState.Close
    simp [h]
  · intro h
    unfold SubState.Close
    simp [h]

/-- Witness for C8 on a live subscriber, three invocations. -/
theorem claim_C8_close_idempotent_witness :
    SubState.Close^[3] ⟨"c", [], 4, false, false⟩
        = SubState.Close ⟨"c", [], 4, false, false⟩
      ∧ (SubState.Close ⟨"c", [], 4, false, false⟩).closedSig = true
      ∧ ((false : Bool) = false →
          (SubState.Close ⟨"c", [], 4, false, false⟩).sendClosed = true)
      ∧ ((false : Bool) = true →
          SubState.Close ⟨"c", [], 4, false, false⟩ = ⟨"c", [], 4, false, false⟩) :=
  claim_C8_close_idempotent ⟨"c", [], 4, false, false⟩ 2

/-- Claim C10: CloseGracefully closes the closed-signal channel without
the already-closed check that Close performs, so on any subscriber
already closed by Close — or by a previous CloseGracefully — the call
faults (close of a closed channel). -/
theorem claim_C10_closeGracefully_faults (s : SubState) (t1 t2 : Nat → Bool) :
    (s.Close).CloseGracefully t1 = Except.error ()
      ∧ (∀ s', s.CloseGracefully t1 = Except.ok s' →
          s'.CloseGracefully t2 = Except.error ()) := by
  constructor
  · unfold SubState.CloseGracefully
    rw [if_pos (close_closedSig s)]
  · intro s' h
    unfold SubState.CloseGracefully at h ⊢
    by_cases hc : s.closedSig
    · rw [if_pos hc] at h
      exact absurd h (by simp)
    · rw [if_neg (by simp [hc])] at h
      have hs' : s'.closedSig = true := by
        have h2 := Except.ok.inj h
        rw [← h2]
      rw [if_pos hs']

/-- Witness for C10 on a live subscriber with one queued message. -/
theorem claim_C10_closeGracefully_faults_witness :
    ((⟨"c", [⟨"m1", "1"⟩], 4, false, false⟩ : SubState).Close).CloseGracefully
        (fun _ => false) = Except.error ()
      ∧ (∀ s', (⟨"c", [⟨"m1", "1"⟩], 4, false, false⟩ : SubState).CloseGracefully
            (fun _ => false) = Except.ok s' →
          s'.CloseGracefully (fun _ => false) = Except.error ()) :=
  claim_C10_closeGracefully_faults ⟨"c", [⟨"m1", "1"⟩], 4, false, false⟩
    (fun _ => false) (fun _ => false)

theorem alookup_aset_self {α : Type} (l : List (String × α)) (k : String) (v : α) :
    alookup (aset l k v) k = some v := by
  induction l with
  | nil => simp [aset, alookup]
  | cons p rest ih =>
    by_cases h : p.1 = k
    · simp [aset, alookup, h]
    · simp [aset, alookup, h, ih]

theorem alookup_aset_ne {α : Type} (l : List (String × α)) (k k' : String) (v : α)
    (h : ¬ k = k') : alookup (aset l k v) k' = alookup l k' := by
  induction l with
  | nil => simp [aset, alookup, h]
  | cons p rest ih =>
    by_cases hp : p.1 = k
    · simp [aset, alookup, hp, h]
    · simp [aset, alookup, hp, ih]

/-- Claim C6 (code bug): the replay ring buffer created by CreateTopic
always has capacity 100 — `NewRingBuffer(100)` is a hard-coded literal —
independent of any configuration, so a RING_BUFFER_SIZE value other than
100 is never honoured. -/
theorem claim_C6_ring_capacity_hardcoded (topics : List (String × TopicState))
    (name : String) (topics' : List (String × TopicState))
    (h : CreateTopic topics name = Except.ok topics') :
    alookup topics' name = some ⟨name, [], NewRingBuffer 100, 0⟩
      ∧ (NewRingBuffer 100).size = 100 := by
  unfold CreateTopic at h
  cases hl : alookup topics name with
  | some t => rw [hl] at h; exact absurd h (by simp)
  | none =>
    rw [hl] at h
    have h2 := Except.ok.inj h
    rw [← h2]
    exact ⟨alookup_aset_self topics name _, rfl⟩

/-- Witness for C6: creating "t" in an empty manager yields a topic whose
buffer capacity is 100. -/
theorem claim_C6_ring_capacity_hardcoded_witness :
    CreateTopic [] "t" = Except.ok [("t", ⟨"t", [], NewRingBuffer 100, 0⟩)]
      ∧ (alookup [("t", (⟨"t", [], NewRingBuffer 100, 0⟩ : TopicState))] "t"
            = some ⟨"t", [], NewRingBuffer 100, 0⟩
          ∧ (NewRingBuffer 100).size = 100) :=
  ⟨rfl, claim_C6_ring_capacity_hardcoded [] "t" _ rfl⟩

/-- Claim C7 counterexample: creating " t " and then "t" does NOT yield
TOPIC_EXISTS/CONFLICT on the second request — both succeed and two
distinct topics are registered, because registration uses the untrimmed
name. -/
theorem claim_C7_counterexample :
    (topicsCollectionPost [] " t ").1 = HttpResult.created " t "
      ∧ (topicsCollectionPost (topicsCollectionPost [] " t ").2 "t").1
          = HttpResult.created "t"
      ∧ (topicsCollectionPost (topicsCollectionPost [] " t ").2 "t").2.length
          = 2 := by
  decide

/-- Claim C7 amended: POST /topics trims the name only for the emptiness
check; registration uses the untrimmed name, so " t " followed by "t"
registers two distinct topics.  A name that is empty after trimming is
rejected with 400 BAD_REQUEST and no topic is created. -/
theorem claim_C7_amended (topics : List (String × TopicState)) (name : String) :
    (trimSpace name = "" →
        topicsCollectionPost topics name = (HttpResult.badRequest, topics))
      ∧ (¬ trimSpace name = "" → alookup topics name = none →
          (topicsCollectionPost topics name).1 = HttpResult.created name
            ∧ alookup (topicsCollectionPost topics name).2 name
                = some ⟨name, [], NewRingBuffer 100, 0⟩) := by
  constructor
  · intro h
    unfold topicsCollectionPost
    rw [if_pos h]
  · intro h hnone
    unfold topicsCollectionPost CreateTopic
    rw [if_neg h, hnone]
    exact ⟨rfl, alookup_aset_self topics name _⟩

/-- Witness for C7 amended: the untrimmed name " t " is registered
verbatim in an empty manager, and the all-blank name is rejected. -/
theorem claim_C7_amended_witness :
    ((trimSpace "  " = "" →
        topicsCollectionPost [] "  " = (HttpResult.badRequest, []))
      ∧ (¬ trimSpace "  " = "" →
            alookup ([] : List (String × TopicState)) "  " = none →
          (topicsCollectionPost [] "  ").1 = HttpResult.created "  "
            ∧ alookup (topicsCollectionPost [] "  ").2 "  "
                = some ⟨"  ", [], NewRingBuffer 100, 0⟩))
      ∧ (topicsCollectionPost [] " t ").1 = HttpResult.created " t "
      ∧ alookup (topicsCollectionPost [] " t ").2 " t "
          = some ⟨" t ", [], NewRingBuffer 100, 0⟩ :=
  ⟨claim_C7_amended [] "  ",
   ((claim_C7_amended [] " t ").2 (by decide) (by decide)).1,
   ((claim_C7_amended [] " t ").2 (by decide) (by decide)).2⟩

/-- Claim C1 (code bug evidence): a session subscribes to "t" as "c" and
then exits.  The session-local subscriptions map is still empty — ws.go
never inserts into it — so the exit cleanup closes nothing: topic "t"
still holds the binding ("c", 0) and subscriber 0 is still live (neither
its closed-signal nor its send channel is closed). -/
theorem claim_C1_session_exit_leaks_subscriber :
    (handleSubscribe worldT ⟨[]⟩ "t" "c" 0 100).map (fun r => r.2.1)
        = some ⟨[]⟩
      ∧ ((handleSubscribe worldT ⟨[]⟩ "t" "c" 0 100).map (fun r =>
          let w2 := sessionCleanup r.1 r.2.1
          ((alookup w2.topics "t").map (fun t => t.subscribers),
           (w2.store 0).closedSig, (w2.store 0).sendClosed)))
        = some (some [("c", 0)], false, false) := by
  decide

/-- Claim C2 counterexample: queue capacity 1 and a replay of two
messages.  The enqueue of the second replayed message finds the queue
full, so the subscriber is closed with SLOW_CONSUMER "replay overflow" —
the claim's premise holds — yet the handler still sends the ack frame
after the error frame, contradicting "no ack frame is sent". -/
theorem claim_C2_counterexample :
    (handleSubscribe worldT2 ⟨[]⟩ "t" "c" 2 1).map (fun r => r.2.2)
        = some [Frame.errorF "SLOW_CONSUMER" "replay overflow", Frame.ack "t"]
      ∧ (handleSubscribe worldT2 ⟨[]⟩ "t" "c" 2 1).map
          (fun r => ((r.1.store 0).closedSig, (r.1.store 0).sendClosed))
        = some (true, true) := by
  decide

/-- Claim C9: with queue capacity 1 and a replay of three messages, the
second replayed message overflows and CloseWithError closes the send
channel; the loop then attempts to send the third replayed message on
the closed channel, which is a Go runtime fault (panic), not a defined
error result — the subscribe handler's outcome is the fault value. -/
theorem claim_C9_replay_send_on_closed_faults :
    (alookup worldT3.topics "t").map (fun t => (t.history.LastN 3).length)
        = some 3
      ∧ (handleSubscribe worldT3 ⟨[]⟩ "t" "c" 3 1).isSome = false := by
  decide

/- ----------------------------------------------------------------
   Replay-loop characterization and the subscribe handler's
   registration path.
----------------------------------------------------------------- -/

theorem replayLoop_overflow_last (s : SubState) (ms : List Message)
    (hopen : s.sendClosed = false) (hsig : s.closedSig = false)
    (hle : s.queue.length ≤ s.cap)
    (hlen : ms.length = s.cap - s.queue.length + 1) :
    ∃ s', replayLoop s ms
        = some (s', [Frame.errorF "SLOW_CONSUMER" "replay overflow"])
      ∧ s'.closedSig = true ∧ s'.sendClosed = true := by
  induction ms generalizing s with
  | nil => simp at hlen
  | cons m rest ih =>
    simp only [replayLoop]
    rw [if_neg (by simp [hopen])]
    by_cases hfull : s.queue.length < s.cap
    · rw [if_pos hfull]
      apply ih
      · simp [hopen]
      · simp [hsig]
      · simp only [List.length_append, List.length_singleton]; omega
      · simp only [List.length_cons] at hlen
        simp only [List.length_append, List.length_singleton]
        omega
    · rw [if_neg hfull]
      have hrest : rest = [] := by
        simp only [List.length_cons] at hlen
        have : rest.length = 0 := by omega
        exact List.length_eq_zero.mp this
      subst hrest
      refine ⟨s.Close, rfl, close_closedSig s, ?_⟩
      unfold SubState.Close
      rw [if_neg (by simp [hsig])]

theorem replayLoop_overflow_early (s : SubState) (ms : List Message)
    (hopen : s.sendClosed = false) (hsig : s.closedSig = false)
    (hle : s.queue.length ≤ s.cap)
    (hlen : s.cap - s.queue.length + 2 ≤ ms.length) :
    replayLoop s ms = none := by
  induction ms generalizing s with
  | nil => simp at hlen
  | cons m rest ih =>
    simp only [replayLoop]
    rw [if_neg (by simp [hopen])]
    by_cases hfull : s.queue.length < s.cap
    · rw [if_pos hfull]
      apply ih
      · simp [hopen]
      · simp [hsig]
      · simp only [List.length_append, List.length_singleton]; omega
      · simp only [List.length_cons] at hlen
        simp only [List.length_append, List.length_singleton]
        omega
    · rw [if_neg hfull]
      simp only [List.length_cons] at hlen
      have hlen2 : 1 ≤ rest.length := by omega
      cases rest with
      | nil => simp at hlen2
      | cons m2 rest2 =>
        have hstop : replayLoop s.Close (m2 :: rest2) = none := by
          simp only [replayLoop]
          rw [if_pos ?hclosed]
          case hclosed =>
            unfold SubState.Close
            rw [if_neg (by simp [hsig])]
        rw [hstop]

/-- Reduction of the subscribe handler on the successful-lookup path:
validation passes and the topic is found, leaving allocation,
registration, optional replay, and the unconditional ack. -/
theorem handleSubscribe_eq (w : World) (sess : SessionState)
    (tn cid : String) (lastN : Int) (qs : Nat) (t : TopicState)
    (htn : ¬ tn = "") (hcid : ¬ cid = "")
    (ht : alookup w.topics tn = some t) :
    handleSubscribe w sess tn cid lastN qs
      = (if 0 < lastN then
          match replayLoop
              ((registerSub t (Store.update w.store w.nextSid
                  ⟨cid, [], qs, false, false⟩) cid w.nextSid).2.1 w.nextSid)
              (t.history.LastN lastN) with
          | none => none
          | some (s', fr) =>
            some (⟨aset w.topics tn (registerSub t (Store.update w.store
                      w.nextSid ⟨cid, [], qs, false, false⟩) cid w.nextSid).1,
                   Store.update (registerSub t (Store.update w.store w.nextSid
                      ⟨cid, [], qs, false, false⟩) cid w.nextSid).2.1
                     w.nextSid s',
                   w.nextSid + 1⟩, sess, fr ++ [Frame.ack tn])
         else
          some (⟨aset w.topics tn (registerSub t (Store.update w.store
                    w.nextSid ⟨cid, [], qs, false, false⟩) cid w.nextSid).1,
                 (registerSub t (Store.update w.store w.nextSid
                    ⟨cid, [], qs, false, false⟩) cid w.nextSid).2.1,
                 w.nextSid + 1⟩, sess, [Frame.ack tn])) := by
  unfold handleSubscribe
  rw [if_neg (by simp [htn, hcid]), ht]

/-- After registration, the freshly allocated subscriber's state is the
new empty-queue subscriber (the replaced binding, if any, is an older
allocation). -/
theorem registerSub_store_fresh (t : TopicState) (st : Store) (cid : String)
    (sid : SubId)
    (hfresh : ∀ old, alookup t.subscribers cid = some old → ¬ old = sid) :
    (registerSub t st cid sid).2.1 sid = st sid := by
  unfold registerSub
  cases hold : alookup t.subscribers cid with
  | none => rfl
  | some old =>
    simp only [Store.update]
    rw [if_neg (fun h => hfresh old hold h.symm)]

/-- Claim C2 amended: for every subscribe request with last_n > 0 whose
replay overflows the subscriber's bounded queue, the Subscriber is
closed via CloseWithError(SLOW_CONSUMER, "replay overflow"); the ack is
NOT suppressed, however: when the overflow hits the final replayed
message the handler still sends the ack frame after the error frame,
and when it hits an earlier message the handler faults (send on a
closed channel) on the next iteration instead of replying at all. -/
theorem claim_C2_amended (w : World) (sess : SessionState)
    (tn cid : String) (lastN : Int) (qs : Nat) (t : TopicState)
    (htn : ¬ tn = "") (hcid : ¬ cid = "")
    (ht : alookup w.topics tn = some t)
    (hfresh : ∀ old, alookup t.subscribers cid = some old → ¬ old = w.nextSid)
    (hl : 0 < lastN) :
    ((t.history.LastN lastN).length = qs + 1 →
        ∃ w', handleSubscribe w sess tn cid lastN qs
            = some (w', sess,
                [Frame.errorF "SLOW_CONSUMER" "replay overflow",
                 Frame.ack tn])
          ∧ (w'.store w.nextSid).closedSig = true
          ∧ (w'.store w.nextSid).sendClosed = true)
      ∧ (qs + 1 < (t.history.LastN lastN).length →
          handleSubscribe w sess tn cid lastN qs = none) := by
  rw [handleSubscribe_eq w sess tn cid lastN qs t htn hcid ht]
  rw [if_pos hl]
  rw [registerSub_store_fresh t _ cid w.nextSid hfresh]
  rw [show Store.update w.store w.nextSid ⟨cid, [], qs, false, false⟩ w.nextSid
        = ⟨cid, [], qs, false, false⟩ by simp [Store.update]]
  constructor
  · intro hlast
    obtain ⟨s', hrl, hsig, hsend⟩ :=
      replayLoop_overflow_last ⟨cid, [], qs, false, false⟩
        (t.history.LastN lastN) rfl rfl (by simp) (by simp; omega)
    rw [hrl]
    exact ⟨_, rfl, by simp [Store.update, hsig], by simp [Store.update, hsend]⟩
  · intro hearly
    rw [replayLoop_overflow_early ⟨cid, [], qs, false, false⟩
      (t.history.LastN lastN) rfl rfl (by simp) (by simp; omega)]

/-- Witness for C2 amended at the concrete overflow-on-last run of the
counterexample (capacity 1, replay of two): the error frame is followed
by the ack. -/
theorem claim_C2_amended_witness :
    ((((alookup worldT2.topics "t").getD ⟨"", [], NewRingBuffer 0, 0⟩).history.LastN
          2).length = 1 + 1 →
        ∃ w', handleSubscribe worldT2 ⟨[]⟩ "t" "c" 2 1
            = some (w', ⟨[]⟩,
                [Frame.errorF "SLOW_CONSUMER" "replay overflow",
                 Frame.ack "t"])
          ∧ (w'.store worldT2.nextSid).closedSig = true
          ∧ (w'.store worldT2.nextSid).sendClosed = true)
      ∧ (1 + 1 < (((alookup worldT2.topics "t").getD
            ⟨"", [], NewRingBuffer 0, 0⟩).history.LastN 2).length →
          handleSubscribe worldT2 ⟨[]⟩ "t" "c" 2 1 = none) :=
  claim_C2_amended worldT2 ⟨[]⟩ "t" "c" 2 1
    ((alookup worldT2.topics "t").getD ⟨"", [], NewRingBuffer 0, 0⟩)
    (by decide) (by decide) (by decide) (by decide) (by decide)

theorem registerSub_fst (t : TopicState) (st : Store) (cid : String)
    (sid : SubId) :
    (registerSub t st cid sid).1
      = { t with subscribers := aset t.subscribers cid sid } := by
  unfold registerSub
  cases alookup t.subscribers cid <;> rfl

/-- Shape of any successful subscribe: the topic map gets the rebinding
of `cid` to the fresh allocation, the allocation counter advances, and
every other heap cell is exactly as the registration step left it. -/
theorem handleSubscribe_ok_shape (w : World) (sess : SessionState)
    (tn cid : String) (lastN : Int) (qs : Nat) (t : TopicState)
    (r : World × SessionState × List Frame)
    (htn : ¬ tn = "") (hcid : ¬ cid = "")
    (ht : alookup w.topics tn = some t)
    (h : handleSubscribe w sess tn cid lastN qs = some r) :
    r.1.topics = aset w.topics tn
        { t with subscribers := aset t.subscribers cid w.nextSid }
      ∧ r.1.nextSid = w.nextSid + 1
      ∧ (∀ j, ¬ j = w.nextSid →
          r.1.store j = (registerSub t (Store.update w.store w.nextSid
              ⟨cid, [], qs, false, false⟩) cid w.nextSid).2.1 j) := by
  rw [handleSubscribe_eq w sess tn cid lastN qs t htn hcid ht] at h
  by_cases hl : 0 < lastN
  · rw [if_pos hl] at h
    cases hrl : replayLoop ((registerSub t (Store.update w.store w.nextSid
        ⟨cid, [], qs, false, false⟩) cid w.nextSid).2.1 w.nextSid)
        (t.history.LastN lastN) with
    | none => rw [hrl] at h; exact absurd h (by simp)
    | some p =>
      rw [hrl] at h
      have hr := (Option.some.inj h).symm
      rw [hr]
      refine ⟨by rw [registerSub_fst], rfl, ?_⟩
      intro j hj
      simp [Store.update, hj]
  · rw [if_neg hl] at h
    have hr := (Option.some.inj h).symm
    rw [hr]
    exact ⟨by rw [registerSub_fst], rfl, fun j hj => rfl⟩

theorem mem_aset_keys {α : Type} (l : List (String × α)) (k x : String) (v : α)
    (h : x ∈ (aset l k v).map Prod.fst) : x ∈ l.map Prod.fst ∨ x = k := by
  induction l with
  | nil => simp [aset] at h; exact Or.inr h
  | cons p rest ih =>
    by_cases hp : p.1 = k
    · simp only [aset, if_pos hp, List.map_cons, List.mem_cons] at h
      rcases h with h | h
      · exact Or.inr h
      · exact Or.inl (by simp [h])
    · simp only [aset, if_neg hp, List.map_cons, List.mem_cons] at h
      rcases h with h | h
      · exact Or.inl (by simp [h])
      · rcases ih h with h2 | h2
        · exact Or.inl (by simp [h2])
        · exact Or.inr h2

theorem aset_keys_nodup {α : Type} (l : List (String × α)) (k : String) (v : α)
    (h : (l.map Prod.fst).Nodup) : ((aset l k v).map Prod.fst).Nodup := by
  induction l with
  | nil => simp [aset]
  | cons p rest ih =>
    simp only [List.map_cons, List.nodup_cons] at h
    by_cases hp : p.1 = k
    · simp only [aset, if_pos hp, List.map_cons, List.nodup_cons]
      exact ⟨by rw [← hp]; exact h.1, h.2⟩
    · simp only [aset, if_neg hp, List.map_cons, List.nodup_cons]
      refine ⟨?_, ih h.2⟩
      intro hc
      rcases mem_aset_keys rest k p.1 v hc with h2 | h2
      · exact h.1 h2
      · exact hp h2

/-- Number of bindings of key `k` in an association list (Go maps hold
exactly one). -/
def countKey {α : Type} (l : List (String × α)) (k : String) : Nat :=
  (l.filter (fun p => decide (p.1 = k))).length

theorem countKey_eq_zero {α : Type} (l : List (String × α)) (k : String)
    (h : ¬ k ∈ l.map Prod.fst) : countKey l k = 0 := by
  induction l with
  | nil => rfl
  | cons p rest ih =>
    simp only [List.map_cons, List.mem_cons] at h
    push_neg at h
    unfold countKey List.filter
    rw [show (decide (p.1 = k)) = false by simp; exact fun hc => h.1 hc.symm]
    exact ih (by simp [h.2])

theorem countKey_aset {α : Type} (l : List (String × α)) (k : String) (v : α)
    (h : (l.map Prod.fst).Nodup) : countKey (aset l k v) k = 1 := by
  induction l with
  | nil => simp [aset, countKey, List.filter]
  | cons p rest ih =>
    simp only [List.map_cons, List.nodup_cons] at h
    by_cases hp : p.1 = k
    · simp only [aset, if_pos hp]
      unfold countKey List.filter
      rw [show (decide ((k, v).1 = k)) = true by simp]
      have hz : countKey rest k = 0 := countKey_eq_zero rest k (by
        intro hc
        exact h.1 (hp ▸ hc))
      unfold countKey at hz
      simp [hz]
    · simp only [aset, if_neg hp]
      unfold countKey List.filter
      rw [show (decide (p.1 = k)) = false by simp [hp]]
      exact ih h.2

/-- Claim C5: after two successful subscribes for the same topic and
client id — from the same or different sessions — the topic's map holds
exactly one Subscriber under that client id, namely the one created by
the second subscribe; the Subscriber created by the first subscribe has
been Closed, and the second registration's critical section closes the
old binding strictly before installing the new one. -/
theorem claim_C5_rebind_single (w : World) (sess1 sess2 : SessionState)
    (tn cid : String) (l1 l2 : Int) (q1 q2 : Nat) (t : TopicState)
    (r1 r2 : World × SessionState × List Frame)
    (htn : ¬ tn = "") (hcid : ¬ cid = "")
    (ht : alookup w.topics tn = some t)
    (hnodup : (t.subscribers.map Prod.fst).Nodup)
    (h1 : handleSubscribe w sess1 tn cid l1 q1 = some r1)
    (h2 : handleSubscribe r1.1 sess2 tn cid l2 q2 = some r2) :
    ∃ t2, alookup r2.1.topics tn = some t2
      ∧ alookup t2.subscribers cid = some (w.nextSid + 1)
      ∧ countKey t2.subscribers cid = 1
      ∧ (r2.1.store w.nextSid).closedSig = true
      ∧ (∃ t1, alookup r1.1.topics tn = some t1
          ∧ (registerSub t1 (Store.update r1.1.store r1.1.nextSid
                ⟨cid, [], q2, false, false⟩) cid r1.1.nextSid).2.2
              = [RegEvent.closedOld w.nextSid,
                 RegEvent.bound cid (w.nextSid + 1)]) := by
  obtain ⟨h1top, h1next, h1store⟩ :=
    handleSubscribe_ok_shape w sess1 tn cid l1 q1 t r1 htn hcid ht h1
  have ht1 : alookup r1.1.topics tn
      = some { t with subscribers := aset t.subscribers cid w.nextSid } := by
    rw [h1top]
    exact alookup_aset_self _ _ _
  obtain ⟨h2top, h2next, h2store⟩ :=
    handleSubscribe_ok_shape r1.1 sess2 tn cid l2 q2 _ r2 htn hcid ht1 h2
  have holdbind :
      alookup (aset t.subscribers cid w.nextSid) cid = some w.nextSid :=
    alookup_aset_self _ _ _
  refine ⟨_, by rw [h2top]; exact alookup_aset_self _ _ _, ?_, ?_, ?_, ?_⟩
  · rw [h1next]
    exact alookup_aset_self _ _ _
  · exact countKey_aset _ cid _ (aset_keys_nodup _ cid _ hnodup)
  · have hj : ¬ w.nextSid = r1.1.nextSid := by
      rw [h1next]
      exact Nat.ne_of_lt (Nat.lt_succ_self w.nextSid)
    rw [h2store w.nextSid hj]
    unfold registerSub
    rw [holdbind]
    simp [Store.update, close_closedSig]
  · refine ⟨_, ht1, ?_⟩
    unfold registerSub
    rw [holdbind, h1next]

/-- Result of the first concrete subscribe for the C5 witness. -/
def c5r1 : World × SessionState × List Frame :=
  (handleSubscribe worldT ⟨[]⟩ "t" "c" 0 100).getD (worldT, ⟨[]⟩, [])

/-- Result of the second concrete subscribe for the C5 witness. -/
def c5r2 : World × SessionState × List Frame :=
  (handleSubscribe c5r1.1 ⟨[]⟩ "t" "c" 0 100).getD (worldT, ⟨[]⟩, [])

/-- Witness for C5: two subscribes for ("t","c") on worldT leave exactly
one binding — the second allocation — with the first one Closed. -/
theorem claim_C5_rebind_single_witness :
    ∃ t2, alookup c5r2.1.topics "t" = some t2
      ∧ alookup t2.subscribers "c" = some (worldT.nextSid + 1)
      ∧ countKey t2.subscribers "c" = 1
      ∧ (c5r2.1.store worldT.nextSid).closedSig = true
      ∧ (∃ t1, alookup c5r1.1.topics "t" = some t1
          ∧ (registerSub t1 (Store.update c5r1.1.store c5r1.1.nextSid
                ⟨"c", [], 100, false, false⟩) "c" c5r1.1.nextSid).2.2
              = [RegEvent.closedOld worldT.nextSid,
                 RegEvent.bound "c" (worldT.nextSid + 1)]) :=
  claim_C5_rebind_single worldT ⟨[]⟩ ⟨[]⟩ "t" "c" 0 0 100 100
    ⟨"t", [], NewRingBuffer 100, 0⟩ c5r1 c5r2
    (by decide) (by decide) (by decide) (by decide) rfl rfl

/-- Characterization of the publish fan-out: it never faults when every
registered subscriber's send channel is open; subscribers with free
queue capacity stay registered and receive the message, subscribers at
capacity are Closed, removed, and billed a SLOW_CONSUMER frame, and
heap cells outside the subscriber list are untouched. -/
theorem fanOut_char (m : Message) (subs : List (String × SubId)) :
    ∀ (st : Store),
      (subs.map Prod.snd).Nodup →
      (∀ p ∈ subs, (st p.2).sendClosed = false) →
      ∃ st' subs' fr, fanOut st m subs = some (st', subs', fr)
        ∧ (∀ p ∈ subs', p ∈ subs)
        ∧ (∀ j, (∀ p ∈ subs, ¬ p.2 = j) → st' j = st j)
        ∧ (∀ p ∈ subs,
            if (st p.2).queue.length < (st p.2).cap then
              p ∈ subs'
                ∧ st' p.2 = { st p.2 with queue := (st p.2).queue ++ [m] }
            else
              ¬ p ∈ subs'
                ∧ st' p.2 = (st p.2).Close
                ∧ (p.2, Frame.errorF "SLOW_CONSUMER"
                    "subscriber queue overflow") ∈ fr) := by
  induction subs with
  | nil =>
    intro st _ _
    exact ⟨st, [], [], rfl, by simp, fun j _ => rfl, by simp⟩
  | cons hd rest ih =>
    obtain ⟨cid, sid⟩ := hd
    intro st hnd hopen
    simp only [List.map_cons, List.nodup_cons] at hnd
    have hopenhd : (st sid).sendClosed = false := hopen (cid, sid) (by simp)
    have hrestne : ∀ p ∈ rest, ¬ p.2 = sid := by
      intro p hp hc
      exact hnd.1 (hc ▸ List.mem_map_of_mem Prod.snd hp)
    simp only [fanOut]
    rw [if_neg (by simp [hopenhd])]
    by_cases hfree : (st sid).queue.length < (st sid).cap
    · rw [if_pos hfree]
      obtain ⟨st', subs', fr, hfo, hsubset, hut, hmain⟩ :=
        ih (Store.update st sid { st sid with queue := (st sid).queue ++ [m] })
          hnd.2 (by
            intro p hp
            simp only [Store.update, if_neg (hrestne p hp)]
            exact hopen p (List.mem_cons_of_mem _ hp))
      rw [hfo]
      refine ⟨st', (cid, sid) :: subs', fr, rfl, ?_, ?_, ?_⟩
      · intro p hp
        rcases List.mem_cons.mp hp with h | h
        · exact List.mem_cons.mpr (Or.inl h)
        · exact List.mem_cons_of_mem _ (hsubset p h)
      · intro j hj
        have hjsid : ¬ sid = j := hj (cid, sid) (by simp)
        rw [hut j (fun p hp => hj p (List.mem_cons_of_mem _ hp))]
        have hjs2 : ¬ j = sid := fun hc => hjsid hc.symm
        simp only [Store.update, if_neg hjs2]
      · intro p hp
        rcases List.mem_cons.mp hp with h | h
        · subst h
          rw [if_pos hfree]
          refine ⟨List.mem_cons_self _ _, ?_⟩
          rw [hut sid hrestne]
          simp [Store.update]
        · have hne : ¬ p.2 = sid := hrestne p h
          have := hmain p h
          simp only [Store.update, if_neg hne] at this
          rcases Nat.lt_or_ge (st p.2).queue.length (st p.2).cap with hc | hc
          · rw [if_pos hc]
            rw [if_pos hc] at this
            exact ⟨List.mem_cons_of_mem _ this.1, this.2⟩
          · rw [if_neg (by omega)]
            rw [if_neg (by omega)] at this
            refine ⟨?_, this.2.1, this.2.2⟩
            intro hc2
            rcases List.mem_cons.mp hc2 with h2 | h2
            · exact hne (by rw [h2])
            · exact this.1 h2
    · rw [if_neg hfree]
      obtain ⟨st', subs', fr, hfo, hsubset, hut, hmain⟩ :=
        ih (Store.update st sid (st sid).Close)
          hnd.2 (by
            intro p hp
            simp only [Store.update, if_neg (hrestne p hp)]
            exact hopen p (List.mem_cons_of_mem _ hp))
      rw [hfo]
      refine ⟨st', subs',
        (sid, Frame.errorF "SLOW_CONSUMER" "subscriber queue overflow") :: fr,
        rfl, ?_, ?_, ?_⟩
      · intro p hp
        exact List.mem_cons_of_mem _ (hsubset p hp)
      · intro j hj
        have hjsid : ¬ sid = j := hj (cid, sid) (by simp)
        rw [hut j (fun p hp => hj p (List.mem_cons_of_mem _ hp))]
        have hjs2 : ¬ j = sid := fun hc => hjsid hc.symm
        simp only [Store.update, if_neg hjs2]
      · intro p hp
        rcases List.mem_cons.mp hp with h | h
        · subst h
          rw [if_neg hfree]
          refine ⟨?_, ?_, by simp⟩
          · intro hc
            exact hnd.1 (List.mem_map_of_mem Prod.snd (hsubset _ hc))
          · rw [hut sid hrestne]
            simp [Store.update]
        · have hne : ¬ p.2 = sid := hrestne p h
          have := hmain p h
          simp only [Store.update, if_neg hne] at this
          rcases Nat.lt_or_ge (st p.2).queue.length (st p.2).cap with hc | hc
          · rw [if_pos hc]
            rw [if_pos hc] at this
            exact this
          · rw [if_neg (by omega)]
            rw [if_neg (by omega)] at this
            exact ⟨this.1, this.2.1, List.mem_cons_of_mem _ this.2.2⟩

/-- Claim C3: on Publish, every registered Subscriber whose bounded queue
is at capacity is — before Publish returns — sent a SLOW_CONSUMER error
frame, Closed, and removed from the Topic's subscriber map, while every
other registered Subscriber with free queue capacity still receives the
message and stays registered; the counter and history are updated once. -/
theorem claim_C3_publish_evicts (w : World) (tn : String) (m : Message)
    (t : TopicState)
    (ht : alookup w.topics tn = some t)
    (hnd : (t.subscribers.map Prod.snd).Nodup)
    (hopen : ∀ p ∈ t.subscribers, (w.store p.2).sendClosed = false)
    (hsig : ∀ p ∈ t.subscribers, (w.store p.2).closedSig = false) :
    ∃ w' fr, publishToTopic w tn m = PubResult.ok w' fr
      ∧ ∃ t', alookup w'.topics tn = some t'
        ∧ t'.msgCount = t.msgCount + 1
        ∧ t'.history = t.history.Add m
        ∧ ∀ p ∈ t.subscribers,
            if (w.store p.2).queue.length < (w.store p.2).cap then
              p ∈ t'.subscribers
                ∧ w'.store p.2
                    = { w.store p.2 with queue := (w.store p.2).queue ++ [m] }
            else
              ¬ p ∈ t'.subscribers
                ∧ (w'.store p.2).closedSig = true
                ∧ (w'.store p.2).sendClosed = true
                ∧ (p.2, Frame.errorF "SLOW_CONSUMER"
                    "subscriber queue overflow") ∈ fr := by
  obtain ⟨st', subs', fr, hfo, hsubset, hut, hmain⟩ :=
    fanOut_char m t.subscribers w.store hnd hopen
  have hfo2 : fanOut w.store m
      ({ t with history := t.history.Add m } : TopicState).subscribers
      = some (st', subs', fr) := hfo
  refine ⟨{ w with
      topics := aset w.topics tn
        { t with
            history := t.history.Add m
            subscribers := subs'
            msgCount := t.msgCount + 1 }
      store := st' }, fr, ?_, ?_⟩
  · unfold publishToTopic
    rw [ht]
    simp only [hfo2]
  · refine ⟨_, alookup_aset_self _ _ _, rfl, rfl, ?_⟩
    intro p hp
    have := hmain p hp
    by_cases hc : (w.store p.2).queue.length < (w.store p.2).cap
    · rw [if_pos hc] at this ⊢
      exact this
    · rw [if_neg hc] at this ⊢
      refine ⟨this.1, ?_, ?_, this.2.2⟩
      · show (st' p.2).closedSig = true
        rw [this.2.1]
        exact close_closedSig _
      · show (st' p.2).sendClosed = true
        rw [this.2.1]
        unfold SubState.Close
        rw [if_neg (by simp [hsig p hp])]

/-- A world for the C3 witness: topic "t" with subscriber "a" (capacity
0, hence at capacity) and subscriber "b" (capacity 5, free). -/
def worldC3 : World :=
  { topics := [("t", ⟨"t", [("a", 0), ("b", 1)], NewRingBuffer 100, 0⟩)],
    store := fun j =>
      if j = 0 then ⟨"a", [], 0, false, false⟩
      else if j = 1 then ⟨"b", [], 5, false, false⟩
      else ⟨"", [], 0, false, false⟩,
    nextSid := 2 }

/-- Witness for C3: publishing to worldC3 evicts "a" with SLOW_CONSUMER
and still delivers to "b". -/
theorem claim_C3_publish_evicts_witness :
    ∃ w' fr, publishToTopic worldC3 "t" ⟨"x", "1"⟩ = PubResult.ok w' fr
      ∧ ∃ t', alookup w'.topics "t" = some t'
        ∧ t'.msgCount
            = (⟨"t", [("a", 0), ("b", 1)], NewRingBuffer 100, 0⟩ :
                TopicState).msgCount + 1
        ∧ t'.history
            = (⟨"t", [("a", 0), ("b", 1)], NewRingBuffer 100, 0⟩ :
                TopicState).history.Add ⟨"x", "1"⟩
        ∧ ∀ p ∈ (⟨"t", [("a", 0), ("b", 1)], NewRingBuffer 100, 0⟩ :
              TopicState).subscribers,
            if (worldC3.store p.2).queue.length < (worldC3.store p.2).cap then
              p ∈ t'.subscribers
                ∧ w'.store p.2 = { worldC3.store p.2 with
                    queue := (worldC3.store p.2).queue ++ [⟨"x", "1"⟩] }
            else
              ¬ p ∈ t'.subscribers
                ∧ (w'.store p.2).closedSig = true
                ∧ (w'.store p.2).sendClosed = true
                ∧ (p.2, Frame.errorF "SLOW_CONSUMER"
                    "subscriber queue overflow") ∈ fr :=
  claim_C3_publish_evicts worldC3 "t" ⟨"x", "1"⟩
    ⟨"t", [("a", 0), ("b", 1)], NewRingBuffer 100, 0⟩
    (by decide) (by decide) (by decide) (by decide)
